import Mathlib

/-!
Verification of the Mr.Toast browser client (src/Game/static/js/game.js and
the lobby script) together with the server-side game engine that the
specification reconstructs.

Client functions are embedded from the JavaScript source. JS numbers are
modelled as rationals; the result of parseFloat and parseInt is an Option,
with none standing for NaN (JS comparisons against NaN are false, and NaN is
falsy). DOM reads become explicit parameters, DOM writes become explicit
state records, and a socket emission becomes an Option-valued result, none
meaning that nothing was emitted.
-/

namespace MrToast

/-- Action field of an invest socket message: game.js emits the string buy
from makeInvestment and the string sell from sellStock. -/
inductive Action where
  | buy
  | sell
deriving DecidableEq, Repr

/-- Payload of an invest socket message: exactly the four fields the client
puts in the object it emits. -/
structure InvestMsg where
  game_id : String
  stock_symbol : String
  amount : ℚ
  action : Action
deriving DecidableEq, Repr

/-- makeInvestment from game.js: reads the selected stock symbol and the
parseFloat of the invest-amount field; an empty symbol or a NaN, zero or
negative amount shows a warning and emits nothing, otherwise it emits an
invest message with action buy. -/
def makeInvestment (gameId stockSymbol : String) (amount : Option ℚ) :
    Option InvestMsg :=
  if stockSymbol = "" then none
  else
    match amount with
    | none => none
    | some a =>
      if a ≤ 0 then none
      else some { game_id := gameId, stock_symbol := stockSymbol,
                  amount := a, action := Action.buy }

/-- sellStock from game.js: same guards as makeInvestment, over the
sell-amount field, emitting an invest message with action sell. -/
def sellStock (gameId stockSymbol : String) (amount : Option ℚ) :
    Option InvestMsg :=
  if stockSymbol = "" then none
  else
    match amount with
    | none => none
    | some a =>
      if a ≤ 0 then none
      else some { game_id := gameId, stock_symbol := stockSymbol,
                  amount := a, action := Action.sell }

/-- createSuspicionBar from game.js: clamps the level to [0,100] with
Math.min and Math.max and embeds the result as the width percentage of the
progress-fill div. -/
def createSuspicionBar (level : ℚ) : String :=
  let percentage := min 100 (max 0 level)
  "<div class=\"progress-bar suspicion\"><div class=\"progress-fill\" style=\"width: "
    ++ toString percentage ++ "%\"></div></div>"

/-- createTrustBar from game.js: same clamping as createSuspicionBar, on the
trust progress bar. -/
def createTrustBar (level : ℚ) : String :=
  let percentage := min 100 (max 0 level)
  "<div class=\"progress-bar trust\"><div class=\"progress-fill\" style=\"width: "
    ++ toString percentage ++ "%\"></div></div>"

/-- A stock as the client reads it: its current price and, when the server
sent one, its price history. -/
structure Stock where
  current_price : ℚ
  price_history : Option (List ℚ)

/-- calculatePriceChange from game.js: zero when the history is absent or
shorter than two entries, otherwise the percentage change of the current
price against the second-to-last history entry. -/
def calculatePriceChange (s : Stock) : ℚ :=
  match s.price_history with
  | none => 0
  | some h =>
    if h.length < 2 then 0
    else ((s.current_price - h.getD (h.length - 2) 0) / h.getD (h.length - 2) 0) * 100

/-- A JS value as the phaseTexts lookup can produce it: an own string label,
an inherited function or object from the prototype chain, or undefined. -/
inductive JsValue where
  | str (s : String)
  | function (name : String)
  | object (name : String)
  | undef
deriving DecidableEq, Repr

/-- JS truthiness of such a value: a string is truthy when non-empty,
functions and objects are truthy, undefined is falsy. -/
def jsTruthy (v : JsValue) : Bool :=
  match v with
  | JsValue.str s => s ≠ ""
  | JsValue.function _ => true
  | JsValue.object _ => true
  | JsValue.undef => false

/-- The function-valued properties every plain object inherits from
Object.prototype; a lookup of one of these keys on the phaseTexts object
literal finds the inherited function, which is truthy. -/
def protoFunctionKeys : List String :=
  ["constructor", "hasOwnProperty", "isPrototypeOf", "propertyIsEnumerable",
   "toLocaleString", "toString", "valueOf", "__defineGetter__",
   "__defineSetter__", "__lookupGetter__", "__lookupSetter__"]

/-- The phaseTexts object literal of getPhaseText in game.js, looked up with
full JS property semantics: the five own keys shadow the prototype, every
inherited Object.prototype key yields its truthy inherited value (the
dunder-proto accessor yields Object.prototype itself, an object), and any
other key yields undefined. -/
def phaseTexts (phase : String) : JsValue :=
  if phase = "waiting" then JsValue.str "等待开始"
  else if phase = "investment" then JsValue.str "投资阶段"
  else if phase = "discussion" then JsValue.str "讨论阶段"
  else if phase = "voting" then JsValue.str "投票阶段"
  else if phase = "game_end" then JsValue.str "游戏结束"
  else if phase ∈ protoFunctionKeys then JsValue.function phase
  else if phase = "__proto__" then JsValue.object "Object.prototype"
  else JsValue.undef

/-- getPhaseText from game.js: the looked-up value when truthy, else the
phase string itself. -/
def getPhaseText (phase : String) : JsValue :=
  if jsTruthy (phaseTexts phase) then phaseTexts phase else JsValue.str phase

/-- The client UI state the result handlers touch: the two amount fields and
the selected card. -/
structure GameUIState where
  investAmount : String
  sellAmount : String
  selectedCard : Option String
deriving DecidableEq, Repr

/-- Payload of an investment_result or card_use_result event. -/
structure ResultPayload where
  success : Bool
  message : String
deriving DecidableEq, Repr

/-- clearInvestmentForm from game.js: blanks the invest-amount and
sell-amount fields. -/
def clearInvestmentForm (st : GameUIState) : GameUIState :=
  { st with investAmount := "", sellAmount := "" }

/-- clearCardSelection from game.js: drops the selected card. -/
def clearCardSelection (st : GameUIState) : GameUIState :=
  { st with selectedCard := none }

/-- The investment_result socket handler: shows a notification whose type is
success when the payload says success and error otherwise, and clears the
investment form only on success. Returns the new UI state and the
notification type shown. -/
def onInvestmentResult (st : GameUIState) (data : ResultPayload) :
    GameUIState × String :=
  ((if data.success then clearInvestmentForm st else st),
   (if data.success then "success" else "error"))

/-- The card_use_result socket handler: same notification rule, clearing the
card selection only on success. -/
def onCardUseResult (st : GameUIState) (data : ResultPayload) :
    GameUIState × String :=
  ((if data.success then clearCardSelection st else st),
   (if data.success then "success" else "error"))

/-- JS comparison x less-than b where x is the result of parseInt (none
standing for NaN): every comparison against NaN is false. -/
def jsLtNum (x : Option Int) (b : Int) : Bool :=
  match x with
  | none => false
  | some v => v < b

/-- JS comparison x greater-than b where x is the result of parseInt, with
the same NaN rule. -/
def jsGtNum (x : Option Int) (b : Int) : Bool :=
  match x with
  | none => false
  | some v => b < v

/-- The trim of JS strings: whitespace removed from both ends. -/
def jsTrim (s : String) : String :=
  String.mk (((s.data.dropWhile Char.isWhitespace).reverse.dropWhile
    Char.isWhitespace).reverse)

/-- createGame from the lobby script: trims the player name, refuses an
empty name, refuses when maxPlayers is less than 3 or greater than 8 under
JS comparison semantics, and otherwise sends the create_game request.
Returns whether the request is sent. -/
def createGame (rawName : String) (maxPlayers : Option Int) : Bool :=
  let playerName := jsTrim rawName
  if playerName = "" then false
  else if jsLtNum maxPlayers 3 || jsGtNum maxPlayers 8 then false
  else true

/-- Phases of a round, as the glossary of the spec lists them and as game.js
names them in getPhaseText. -/
inductive Phase where
  | waiting
  | investment
  | discussion
  | voting
  | game_end
deriving DecidableEq, Repr

/-- The error taxonomy of the spec: ValidationError, StateError,
ResourceError, NotFoundError. -/
inductive EngineError where
  | ValidationError
  | StateError
  | ResourceError
  | NotFoundError
deriving DecidableEq, Repr

/-- A player record as the engine mutates it: money and the holdings map
from stock symbol to held quantity (an association list). -/
structure EnginePlayer where
  id : String
  money : ℚ
  holdings : List (String × ℕ)
deriving DecidableEq, Repr

namespace StockMarket

/-- Quantity of a symbol held in a holdings map, zero when absent. -/
def getHolding (hs : List (String × ℕ)) (sym : String) : ℕ :=
  ((hs.find? (fun q => q.1 = sym)).map Prod.snd).getD 0

/-- The holdings map with the quantity under a symbol replaced. -/
def setHolding (hs : List (String × ℕ)) (sym : String) (q : ℕ) :
    List (String × ℕ) :=
  (sym, q) :: hs.filter (fun r => r.1 ≠ sym)

/-- Modelled from the spec: StockMarket.buy of the server engine, which is
not under src. Fails with InsufficientFunds (a ResourceError) when
amount times current_price exceeds the money of the player; otherwise debits
money and credits the holding. -/
def buy (p : EnginePlayer) (price : ℚ) (sym : String) (amount : ℕ) :
    Except EngineError EnginePlayer :=
  if (amount : ℚ) * price > p.money then Except.error EngineError.ResourceError
  else Except.ok
    { p with
      money := p.money - (amount : ℚ) * price,
      holdings := setHolding p.holdings sym (getHolding p.holdings sym + amount) }

/-- Modelled from the spec: StockMarket.sell of the server engine, which is
not under src. Fails with InsufficientHoldings (a ResourceError) when the
amount exceeds the held quantity; otherwise credits money at current_price
and debits the holding. -/
def sell (p : EnginePlayer) (price : ℚ) (sym : String) (amount : ℕ) :
    Except EngineError EnginePlayer :=
  if amount > getHolding p.holdings sym then Except.error EngineError.ResourceError
  else Except.ok
    { p with
      money := p.money + (amount : ℚ) * price,
      holdings := setHolding p.holdings sym (getHolding p.holdings sym - amount) }

end StockMarket

/-- The game state the invest command touches: the phase, the player
records and the price of each symbol. -/
structure EngineGame where
  phase : Phase
  players : List EnginePlayer
  prices : List (String × ℚ)
deriving DecidableEq, Repr

/-- Modelled from the spec: the invest command of the GamePhaseMachine,
which is not under src. In the order the spec lists the checks, it rejects
an unrecognized actor with NotFoundError and a phase other than investment
with StateError, then delegates to StockMarket.buy or StockMarket.sell; on
any failure the game is returned unchanged along with the error. -/
def investCmd (g : EngineGame) (pid sym : String) (amount : ℕ)
    (act : Action) : EngineGame × Except EngineError Unit :=
  match g.players.find? (fun p => p.id = pid) with
  | none => (g, Except.error EngineError.NotFoundError)
  | some p =>
    if g.phase ≠ Phase.investment then (g, Except.error EngineError.StateError)
    else
      let price := ((g.prices.find? (fun q => q.1 = sym)).map Prod.snd).getD 0
      match (match act with
             | Action.buy => StockMarket.buy p price sym amount
             | Action.sell => StockMarket.sell p price sym amount) with
      | Except.error e => (g, Except.error e)
      | Except.ok p2 =>
        ({ g with players := g.players.map (fun q => if q.id = pid then p2 else q) },
         Except.ok ())

namespace VoteTally

/-- Modelled from the spec: VoteTally.cast of the server engine, which is
not under src. The vote book keeps one active vote per voter, an
association list from voter id to target id; casting removes any earlier
vote by the same voter and records the new target. -/
def cast (votes : List (String × String)) (voter target : String) :
    List (String × String) :=
  (voter, target) :: votes.filter (fun v => v.1 ≠ voter)

/-- Modelled from the spec: the tally at phase close, which is not under
src. Votes for a target are the active votes naming that target. -/
def tallyFor (votes : List (String × String)) (target : String) : ℕ :=
  (votes.filter (fun v => v.2 = target)).length

end VoteTally

/-- A one-player game sitting in the voting phase, used to instantiate the
phase-rejection theorem. -/
def demoVotingGame : EngineGame :=
  { phase := Phase.voting,
    players := [{ id := "p1", money := 100, holdings := [] }],
    prices := [("S", 5)] }

/-- C1: for every numeric level, the suspicion and trust bars embed a width
percentage equal to min(100, max(0, level)), so the displayed levels are
always within [0,100], also for negative inputs and inputs above 100. -/
theorem suspicion_trust_bars_clamped : ∀ level : ℚ,
    createSuspicionBar level =
      "<div class=\"progress-bar suspicion\"><div class=\"progress-fill\" style=\"width: "
        ++ toString (min 100 (max 0 level)) ++ "%\"></div></div>" ∧
    createTrustBar level =
      "<div class=\"progress-bar trust\"><div class=\"progress-fill\" style=\"width: "
        ++ toString (min 100 (max 0 level)) ++ "%\"></div></div>" ∧
    0 ≤ min 100 (max 0 level) ∧ min 100 (max 0 level) ≤ (100 : ℚ) := by
  intro level
  refine ⟨rfl, rfl, ?_, min_le_left _ _⟩
  exact le_min (by norm_num) (le_max_left 0 level)

/-- C2: every invest message the client emits carries exactly the fields
game_id, stock_symbol, amount and action; makeInvestment emits action buy,
sellStock emits action sell, and no action outside buy and sell exists. -/
theorem invest_message_fields : ∀ gid sym : String, ∀ amt : Option ℚ,
    ∀ msg : InvestMsg,
    (makeInvestment gid sym amt = some msg →
      ∃ a : ℚ, amt = some a ∧
        msg = { game_id := gid, stock_symbol := sym, amount := a,
                action := Action.buy }) ∧
    (sellStock gid sym amt = some msg →
      ∃ a : ℚ, amt = some a ∧
        msg = { game_id := gid, stock_symbol := sym, amount := a,
                action := Action.sell }) ∧
    (msg.action = Action.buy ∨ msg.action = Action.sell) := by
  intro gid sym amt msg
  refine ⟨?_, ?_, ?_⟩
  · intro hemit
    unfold makeInvestment at hemit
    split at hemit
    · cases hemit
    · cases amt with
      | none => cases hemit
      | some a =>
        simp only at hemit
        split at hemit
        · cases hemit
        · exact ⟨a, rfl, (Option.some.inj hemit).symm⟩
  · intro hemit
    unfold sellStock at hemit
    split at hemit
    · cases hemit
    · cases amt with
      | none => cases hemit
      | some a =>
        simp only at hemit
        split at hemit
        · cases hemit
        · exact ⟨a, rfl, (Option.some.inj hemit).symm⟩
  · obtain ⟨g1, s1, a1, act⟩ := msg
    cases act
    · exact Or.inl rfl
    · exact Or.inr rfl

/-- C3: the investment_result and card_use_result handlers show a success
notification exactly when the payload says success and an error notification
otherwise, clear the form respectively the card selection exactly on
success, and leave the state untouched on failure. -/
theorem result_handlers_spec : ∀ st : GameUIState, ∀ data : ResultPayload,
    ((onInvestmentResult st data).2 = "success" ↔ data.success = true) ∧
    ((onInvestmentResult st data).2 = "error" ↔ data.success = false) ∧
    ((onCardUseResult st data).2 = "success" ↔ data.success = true) ∧
    ((onCardUseResult st data).2 = "error" ↔ data.success = false) ∧
    (data.success = true →
      (onInvestmentResult st data).1 = clearInvestmentForm st ∧
      (onCardUseResult st data).1 = clearCardSelection st) ∧
    (data.success = false →
      (onInvestmentResult st data).1 = st ∧ (onCardUseResult st data).1 = st) := by
  intro st data
  cases h : data.success <;>
    simp [onInvestmentResult, onCardUseResult, h]

/-- C4: calculatePriceChange returns 0 when the price history is absent or
shorter than two entries; with at least two recorded prices, all positive,
the second-to-last entry is nonzero and the result is
((current_price - previous) / previous) * 100. -/
theorem calculatePriceChange_spec : ∀ s : Stock,
    (s.price_history = none → calculatePriceChange s = 0) ∧
    ∀ h : List ℚ, s.price_history = some h →
      (h.length < 2 → calculatePriceChange s = 0) ∧
      (2 ≤ h.length → (∀ x ∈ h, 0 < x) →
        h.getD (h.length - 2) 0 ≠ 0 ∧
        calculatePriceChange s =
          ((s.current_price - h.getD (h.length - 2) 0) /
            h.getD (h.length - 2) 0) * 100) := by
  intro s
  constructor
  · intro hn
    simp [calculatePriceChange, hn]
  · intro h hh
    constructor
    · intro hlt
      simp [calculatePriceChange, hh, hlt]
    · intro hge hpos
      have hidx : h.length - 2 < h.length := by omega
      have hmem : h.getD (h.length - 2) 0 ∈ h := by
        rw [List.getD_eq_getElem h 0 hidx]
        exact List.getElem_mem hidx
      have hp : 0 < h.getD (h.length - 2) 0 := hpos _ hmem
      refine ⟨ne_of_gt hp, ?_⟩
      simp only [calculatePriceChange, hh]
      rw [if_neg (by omega)]

/-- Counterexample to C5 as stated: the input constructor is none of the
five phases, yet getPhaseText returns the truthy inherited
Object.prototype.constructor function, not the input string unchanged. -/
theorem getPhaseText_proto_counterexample :
    getPhaseText "constructor" = JsValue.function "constructor" ∧
    getPhaseText "constructor" ≠ JsValue.str "constructor" := by
  constructor
  · decide
  · decide

/-- C5 amended: getPhaseText maps the five phases waiting, investment,
discussion, voting and game_end to fixed non-empty labels and returns every
other string unchanged, except for the inherited Object.prototype keys,
where the lookup finds the truthy inherited function (for the dunder-proto
key, the Object.prototype object) and returns it instead of the string. -/
theorem getPhaseText_spec :
    getPhaseText "waiting" = JsValue.str "等待开始" ∧
    getPhaseText "investment" = JsValue.str "投资阶段" ∧
    getPhaseText "discussion" = JsValue.str "讨论阶段" ∧
    getPhaseText "voting" = JsValue.str "投票阶段" ∧
    getPhaseText "game_end" = JsValue.str "游戏结束" ∧
    ("等待开始" ≠ "" ∧ "投资阶段" ≠ "" ∧ "讨论阶段" ≠ "" ∧
     "投票阶段" ≠ "" ∧ "游戏结束" ≠ "") ∧
    (∀ s ∈ protoFunctionKeys, getPhaseText s = JsValue.function s) ∧
    getPhaseText "__proto__" = JsValue.object "Object.prototype" ∧
    ∀ s : String, s ≠ "waiting" → s ≠ "investment" → s ≠ "discussion" →
      s ≠ "voting" → s ≠ "game_end" → s ∉ protoFunctionKeys →
      s ≠ "__proto__" →
      phaseTexts s = JsValue.undef ∧ getPhaseText s = JsValue.str s := by
  refine ⟨by decide, by decide, by decide, by decide, by decide,
    ⟨by decide, by decide, by decide, by decide, by decide⟩,
    by decide, by decide, ?_⟩
  intro s h1 h2 h3 h4 h5 h6 h7
  have hpt : phaseTexts s = JsValue.undef := by
    simp [phaseTexts, h1, h2, h3, h4, h5, h6, h7]
  exact ⟨hpt, by simp [getPhaseText, hpt, jsTruthy]⟩

/-- C6: in the voting phase an invest command from a recognized player fails
with StateError and returns the game unchanged, so every balance and every
holding is exactly as before. -/
theorem invest_rejected_in_voting (g : EngineGame) (pid sym : String)
    (amount : ℕ) (act : Action) (hphase : g.phase = Phase.voting)
    (hplayer : (g.players.find? (fun p => p.id = pid)).isSome = true) :
    investCmd g pid sym amount act = (g, Except.error EngineError.StateError) := by
  obtain ⟨p, hp⟩ := Option.isSome_iff_exists.mp hplayer
  simp [investCmd, hp, hphase]

/-- Witness for C6: the rejection evaluated on a concrete one-player game in
the voting phase. -/
theorem invest_rejected_in_voting_witness :
    investCmd demoVotingGame "p1" "S" 1 Action.buy =
      (demoVotingGame, Except.error EngineError.StateError) :=
  invest_rejected_in_voting demoVotingGame "p1" "S" 1 Action.buy rfl (by decide)

/-- C7: a voter who casts twice in one voting phase is tallied once, against
the later target: casting twice equals casting the later vote alone, the
vote book keeps exactly one entry for that voter, and every per-target tally
agrees with the single-vote book. -/
theorem vote_overwrite_spec : ∀ votes : List (String × String),
    ∀ voter t1 t2 : String,
    VoteTally.cast (VoteTally.cast votes voter t1) voter t2 =
      VoteTally.cast votes voter t2 ∧
    (VoteTally.cast (VoteTally.cast votes voter t1) voter t2).filter
        (fun v => v.1 = voter) = [(voter, t2)] ∧
    ∀ t : String,
      VoteTally.tallyFor
          (VoteTally.cast (VoteTally.cast votes voter t1) voter t2) t =
        VoteTally.tallyFor (VoteTally.cast votes voter t2) t := by
  intro votes voter t1 t2
  have hmain : VoteTally.cast (VoteTally.cast votes voter t1) voter t2 =
      VoteTally.cast votes voter t2 := by
    simp [VoteTally.cast, List.filter_cons, List.filter_filter, Bool.and_self]
  refine ⟨hmain, ?_, fun t => by rw [hmain]⟩
  rw [hmain]
  simp [VoteTally.cast, List.filter_cons, List.filter_filter, decide_not,
    Bool.and_not_self, List.filter_false]

/-- Reading a holding back after writing it yields the written quantity. -/
theorem getHolding_setHolding (hs : List (String × ℕ)) (sym : String) (q : ℕ) :
    StockMarket.getHolding (StockMarket.setHolding hs sym q) sym = q := by
  simp [StockMarket.getHolding, StockMarket.setHolding, List.find?]

/-- A sell whose amount is covered by the holding succeeds and produces the
credited record. -/
theorem sell_ok (p : EnginePlayer) (price : ℚ) (sym : String) (amount : ℕ)
    (h : amount ≤ StockMarket.getHolding p.holdings sym) :
    StockMarket.sell p price sym amount = Except.ok
      { p with
        money := p.money + (amount : ℚ) * price,
        holdings := StockMarket.setHolding p.holdings sym
          (StockMarket.getHolding p.holdings sym - amount) } := by
  unfold StockMarket.sell
  rw [if_neg (by omega)]

/-- C8: after a successful buy, selling the same amount of the same stock at
the unchanged price succeeds and restores the money to its exact pre-trade
value, and the holding quantity returns to its pre-trade value as well. -/
theorem buy_sell_roundtrip (p : EnginePlayer) (price : ℚ) (sym : String)
    (amount : ℕ) (p2 : EnginePlayer)
    (hbuy : StockMarket.buy p price sym amount = Except.ok p2) :
    ∃ p3 : EnginePlayer,
      StockMarket.sell p2 price sym amount = Except.ok p3 ∧
      p3.money = p.money ∧
      StockMarket.getHolding p3.holdings sym =
        StockMarket.getHolding p.holdings sym := by
  unfold StockMarket.buy at hbuy
  split at hbuy
  · cases hbuy
  · injection hbuy with h
    subst h
    have hh := getHolding_setHolding p.holdings sym
      (StockMarket.getHolding p.holdings sym + amount)
    refine ⟨_, sell_ok _ price sym amount (by simp only [hh]; omega), ?_, ?_⟩
    · dsimp only
      ring
    · dsimp only
      rw [getHolding_setHolding]
      simp only [hh]
      omega

/-- Witness for C8: a player with 100 in money buys 3 shares at price 5 and
sells them back, ending with 100 in money and the empty holding again. -/
theorem buy_sell_roundtrip_witness :
    ∃ p3 : EnginePlayer,
      StockMarket.sell { id := "alice", money := 85, holdings := [("S", 3)] }
          5 "S" 3 = Except.ok p3 ∧
      p3.money =
        ({ id := "alice", money := 100, holdings := [] } : EnginePlayer).money ∧
      StockMarket.getHolding p3.holdings "S" =
        StockMarket.getHolding
          ({ id := "alice", money := 100, holdings := [] } :
            EnginePlayer).holdings "S" :=
  buy_sell_roundtrip { id := "alice", money := 100, holdings := [] } 5 "S" 3
    { id := "alice", money := 85, holdings := [("S", 3)] }
    (by
      unfold StockMarket.buy
      rw [if_neg (by norm_num)]
      simp [StockMarket.setHolding, StockMarket.getHolding]
      norm_num)

/-- C9: makeInvestment and sellStock emit exactly when a stock symbol is
selected and parseFloat of the amount field is strictly positive; NaN, zero
and negative amounts emit nothing; and a fractional amount such as 1/2 is
emitted as is, so the amount is not constrained to integers. -/
theorem invest_emission_guard : ∀ gid sym : String, ∀ amt : Option ℚ,
    ((makeInvestment gid sym amt).isSome = true ↔
      sym ≠ "" ∧ ∃ a : ℚ, amt = some a ∧ 0 < a) ∧
    ((sellStock gid sym amt).isSome = true ↔
      sym ≠ "" ∧ ∃ a : ℚ, amt = some a ∧ 0 < a) ∧
    makeInvestment "g1" "ACME" (some ((1 : ℚ) / 2)) =
      some { game_id := "g1", stock_symbol := "ACME", amount := (1 : ℚ) / 2,
             action := Action.buy } ∧
    (1 : ℚ) / 2 ∉ Set.range (Int.cast : ℤ → ℚ) := by
  intro gid sym amt
  refine ⟨?_, ?_, ?_, ?_⟩
  · by_cases hs : sym = ""
    · simp [makeInvestment, hs]
    · cases amt with
      | none => simp [makeInvestment, hs]
      | some a =>
        by_cases ha : a ≤ 0
        · simp [makeInvestment, hs, ha, not_lt.mpr ha]
        · simp [makeInvestment, hs, ha, lt_of_not_le ha]
  · by_cases hs : sym = ""
    · simp [sellStock, hs]
    · cases amt with
      | none => simp [sellStock, hs]
      | some a =>
        by_cases ha : a ≤ 0
        · simp [sellStock, hs, ha, not_lt.mpr ha]
        · simp [sellStock, hs, ha, lt_of_not_le ha]
  · have hne : ¬("ACME" = "") := by decide
    norm_num [makeInvestment, hne]
  · rintro ⟨n, hn⟩
    have h2 : ((2 * n : ℤ) : ℚ) = 1 := by push_cast; rw [hn]; ring
    have h3 : (2 * n : ℤ) = 1 := by exact_mod_cast h2
    omega

/-- Counterexample to C10 as stated: with player name alice and a
max-players field that parses to NaN, the parsed value satisfies no bound
3 ≤ n ≤ 8, yet the create_game request is sent, because both JS comparisons
against NaN are false. -/
theorem createGame_nan_counterexample :
    createGame "alice" none = true ∧
    ¬ ∃ n : Int, (none : Option Int) = some n ∧ 3 ≤ n ∧ n ≤ 8 := by
  constructor
  · decide
  · rintro ⟨n, hn, -⟩
    cases hn

/-- C10 amended: createGame sends the request exactly when the trimmed name
is non-empty and neither maxPlayers less-than 3 nor maxPlayers greater-than
8 holds under JS comparison semantics; for a numeric parse that is exactly
3 ≤ n ≤ 8, while a NaN parse passes the guard and the request is sent. -/
theorem createGame_spec : ∀ rawName : String, ∀ mp : Option Int,
    (createGame rawName mp = true ↔
      jsTrim rawName ≠ "" ∧ jsLtNum mp 3 = false ∧ jsGtNum mp 8 = false) ∧
    (∀ n : Int, createGame rawName (some n) = true ↔
      jsTrim rawName ≠ "" ∧ 3 ≤ n ∧ n ≤ 8) ∧
    (createGame rawName none = true ↔ jsTrim rawName ≠ "") := by
  intro rawName mp
  refine ⟨?_, ?_, ?_⟩
  · by_cases hn : jsTrim rawName = "" <;>
      cases mp <;>
        simp [createGame, jsLtNum, jsGtNum, hn]
  · intro n
    by_cases hn : jsTrim rawName = "" <;>
      simp [createGame, jsLtNum, jsGtNum, hn]
  · by_cases hn : jsTrim rawName = "" <;>
      simp [createGame, jsLtNum, jsGtNum, hn]

end MrToast
